import Mathlib

/-!
Verification of the evaluation pipeline of `export-all.py` (leaderboard
repository): numeric file loader, submission filename parsing, RMSE scorer,
and ranking aggregator.  Python floats are modelled by exact rationals `ℚ`
(reals `ℝ` where a square root is taken); Python `None` by `Option`;
a raised exception by `Except.error`.
-/

namespace Leaderboard

/-! ### Scorer: `compute_rmse` (src/export-all.py lines 141-153) -/

/-- Model of `np.mean` on a list of rationals: sum divided by length. -/
def np_mean (l : List ℚ) : ℚ := l.sum / (l.length : ℚ)

/-- Elementwise `(a - b) ** 2`, as NumPy broadcasting produces on two
equal-length vectors. -/
def sqDiffs (a b : List ℚ) : List ℚ := List.zipWith (fun x y => (x - y) ^ 2) a b

/-- The mean-squared-error part of `compute_rmse`: `None` checks, the empty
checks on `len`, the truncation to the shorter length, and `np.mean((a2-b2)**2)`.
Mirrors src/export-all.py lines 141-152 up to (but not including) `np.sqrt`. -/
def compute_mse (oa ob : Option (List ℚ)) : Option ℚ :=
  match oa, ob with
  | none, _ => none
  | _, none => none
  | some a, some b =>
    if a.length = 0 ∨ b.length = 0 then none
    else if a.length ≠ b.length then
      some (np_mean (sqDiffs (a.take (min a.length b.length))
        (b.take (min a.length b.length))))
    else some (np_mean (sqDiffs a b))

/-- Function `compute_rmse` (src/export-all.py lines 141-153): `float(np.sqrt(mse))`
applied to the mean squared error, with all the `None`/empty guards. -/
noncomputable def compute_rmse (oa ob : Option (List ℚ)) : Option ℝ :=
  (compute_mse oa ob).map (fun q : ℚ => Real.sqrt (q : ℝ))

/-! ### Numeric file loader: `load_numeric_file` (src/export-all.py lines 81-103)

`np.loadtxt` on a tabular text file yields a one- or two-dimensional float
array; a two-dimensional NumPy array is rectangular, so we carry its column
count `ncols` (= `arr.shape[1]`) alongside the rows. -/

/-- Result of a successful `np.loadtxt` call. -/
inductive NDArray : Type
  | one (vals : List ℚ)
  | two (rows : List (List ℚ)) (ncols : Nat)

/-- The outcomes of the four `np.loadtxt` parse strategies on one file, in the
source's fixed priority order: (comma, skiprows=1), (whitespace, skiprows=1),
(comma, no skip), (whitespace, no skip).  `Except.error` is a raised
exception. -/
structure FileParse : Type where
  s1 : Except Unit NDArray
  s2 : Except Unit NDArray
  s3 : Except Unit NDArray
  s4 : Except Unit NDArray

/-- The nested `try/except` chain of src/export-all.py lines 83-92: take the
first strategy that succeeds; if strategies 1-3 fail, the fourth call's
exception (if any) escapes the inner chain. -/
def parseAttempts (f : FileParse) : Except Unit NDArray :=
  match f.s1 with
  | .ok a => .ok a
  | .error _ =>
    match f.s2 with
    | .ok a => .ok a
    | .error _ =>
      match f.s3 with
      | .ok a => .ok a
      | .error _ => f.s4

/-- Post-processing of src/export-all.py lines 94-100: on a two-dimensional
array keep column 1 when there are at least two columns (`r.getD 1 0` renders
`row[1]`, which always exists since a NumPy 2-d array is rectangular with
`ncols ≥ 2` columns), otherwise flatten; a one-dimensional array passes
through unchanged. -/
def postprocess : NDArray → List ℚ
  | .one v => v
  | .two rows ncols =>
    if 2 ≤ ncols then rows.map (fun r => r.getD 1 0) else rows.flatten

/-- The body of `load_numeric_file` inside the outer `try` (src/export-all.py
lines 83-100): parse attempts followed by post-processing; an exception that
the inner chain does not catch is an `Except.error`. -/
def load_body (f : FileParse) : Except Unit (List ℚ) :=
  (parseAttempts f).map postprocess

/-- Function `load_numeric_file` (src/export-all.py lines 81-103): the outer
`try/except` turns any escaped exception into the unreadable signal `None`. -/
def load_numeric_file (f : FileParse) : Option (List ℚ) :=
  match load_body f with
  | .ok v => some v
  | .error _ => none

/-! ### Submission filename parsing: `parse_submission_filename` (lines 105-110) -/

/-- ASCII-lowercased code point of a character: the case folding that
`re.IGNORECASE` performs on the ASCII letters of the pattern. -/
def lowerCode (c : Char) : Nat :=
  if 65 ≤ c.toNat ∧ c.toNat ≤ 90 then c.toNat + 32 else c.toNat

/-- Case-insensitive match of a literal pattern against a piece of input. -/
def ciMatches (pat s : List Char) : Prop := s.map lowerCode = pat.map lowerCode

instance (pat s : List Char) : Decidable (ciMatches pat s) := by
  unfold ciMatches; infer_instance

/-- Consume a literal pattern case-insensitively from the front of the input,
returning the remainder — the way `re.match` consumes the literal parts of
`Results_(\d+)_(\d+)\.csv`. -/
def stripCI : List Char → List Char → Option (List Char)
  | [], s => some s
  | _ :: _, [] => none
  | p :: ps, c :: cs => if lowerCode c = lowerCode p then stripCI ps cs else none

/-- Model of `int(...)` applied to a digit string. -/
def natOfDigits (ds : List Char) : Nat :=
  ds.foldl (fun n c => n * 10 + (c.toNat - 48)) 0

/-- Function `parse_submission_filename` (src/export-all.py lines 105-110):
`re.match(r"Results_(\d+)_(\d+)\.csv", fname, re.IGNORECASE)` followed by
`(match.group(1), int(match.group(2)))` on success.  `re.match` anchors only
at the start of the string, so input remaining after `.csv` is ignored.  The
greedy `\d+` groups are maximal digit runs (`takeWhile isDigit`); this is
exact because each group is followed by a non-digit literal, leaving the
regex engine no backtracking choice. -/
def parse_submission_filename (fname : String) : Option (String × Nat) :=
  match stripCI "results_".toList fname.toList with
  | none => none
  | some r1 =>
    match r1.dropWhile Char.isDigit with
    | '_' :: r3 =>
      if r1.takeWhile Char.isDigit = [] ∨ r3.takeWhile Char.isDigit = [] then none
      else
        match stripCI ".csv".toList (r3.dropWhile Char.isDigit) with
        | none => none
        | some _ =>
          some (String.mk (r1.takeWhile Char.isDigit),
            natOfDigits (r3.takeWhile Char.isDigit))
    | _ => none

/-- A non-empty all-digit group: one `\d+` group of the pattern. -/
def digitGroup (ds : List Char) : Prop := ds ≠ [] ∧ ∀ c ∈ ds, c.isDigit

/-- The spec's acceptance condition, from its words: the whole filename
matches `Results_<digits>_<digits>.csv` case-insensitively. -/
def strictPattern (fname : String) : Prop :=
  ∃ pre d1 d2 ext : List Char,
    fname.toList = pre ++ d1 ++ ('_' :: (d2 ++ ext)) ∧
    ciMatches "results_".toList pre ∧ digitGroup d1 ∧ digitGroup d2 ∧
    ciMatches ".csv".toList ext

/-- The pattern anchored only at the start: a leading segment of the filename
matches `Results_<digits>_<digits>.csv` case-insensitively and the rest is
arbitrary.  This is what `re.match` actually tests. -/
def anchoredPattern (fname : String) : Prop :=
  ∃ pre d1 d2 ext rest : List Char,
    fname.toList = pre ++ d1 ++ ('_' :: (d2 ++ ext ++ rest)) ∧
    ciMatches "results_".toList pre ∧ digitGroup d1 ∧ digitGroup d2 ∧
    ciMatches ".csv".toList ext

/-! ### Evaluation pipeline: `evaluate_participants` (src/export-all.py lines 156-258)

A participant directory is given as discovery found it (`find_local_participants`
plus the `Submissions` subdirectory check), and each submission file carries its
parse-strategy outcomes so that the pipeline can run the loader on it. -/

/-- One file in a `Submissions` directory: its name and the parse outcomes of
its content. -/
structure SubFile : Type where
  name : String
  data : FileParse

/-- One directory matched by `PARTICIPANT_\d{1,3}` during discovery: its full
path, its basename (`os.path.basename(ppath)`), whether the `Submissions`
subdirectory exists, and the files found inside it. -/
structure ParticipantDir : Type where
  path : String
  base : String
  hasSubs : Bool
  files : List SubFile

/-- One entry of the `summary` list (src/export-all.py lines 194-203). -/
structure SummaryRow : Type where
  participant : String
  participant_id : String
  submission_num : Nat
  submission_id : String
  participant_path : String
  file : String
  solution_file : String
  rmse : ℝ

/-- One entry of the `submission_stats` list (src/export-all.py lines 205-213). -/
structure Stat : Type where
  submission_id : String
  participant : String
  participant_id : String
  submission_num : Nat
  rmse : ℝ
  file : String
  participant_path : String

/-- One row of the ranking CSV (src/export-all.py lines 244-253). -/
structure RankRow : Type where
  rank : Nat
  submission_id : String
  participant_id : String
  submission_num : Nat
  rmse : ℝ
  file : String
  participant_path : String

/-- Function `match_solution_file` (src/export-all.py lines 112-115): ignore the
submission filename and return the first key of the (insertion-ordered)
solutions dict, or `None` when it is empty. -/
def match_solution_file (_fname : String)
    (solutions : List (String × List ℚ)) : Option String :=
  match solutions with
  | [] => none
  | s :: _ => some s.1

/-- The per-file body of the discovery loop (src/export-all.py lines 173-213):
parse the filename, pick a solution, load the file, score it, and build the
`summary` and `submission_stats` entries; any failed step skips the file
(`continue`). -/
noncomputable def evalFile (solutions : List (String × List ℚ))
    (p : ParticipantDir) (f : SubFile) : Option (SummaryRow × Stat) :=
  match parse_submission_filename f.name with
  | none => none
  | some (pid, num) =>
    match match_solution_file f.name solutions with
    | none => none
    | some solName =>
      match solutions.lookup solName with
      | none => none
      | some solArr =>
        match load_numeric_file f.data with
        | none => none
        | some arr =>
          match compute_rmse (some solArr) (some arr) with
          | none => none
          | some r =>
            some (⟨p.base, pid, num, "PARTICIPANT_" ++ pid ++ "_Sub" ++ toString num,
                p.path, f.name, solName, r⟩,
              ⟨"PARTICIPANT_" ++ pid ++ "_Sub" ++ toString num, p.base, pid, num, r,
                f.name, p.path⟩)

/-- The per-participant part of the loop (src/export-all.py lines 165-171):
skip a participant without a `Submissions` directory, else process its files
in order. -/
noncomputable def evalParticipant (solutions : List (String × List ℚ))
    (p : ParticipantDir) : List (SummaryRow × Stat) :=
  if p.hasSubs then p.files.filterMap (evalFile solutions p) else []

/-- Sort key of `sorted(submission_stats, key=lambda x: x["rmse"])`. -/
def rmseLe (a b : Stat) : Prop := a.rmse ≤ b.rmse

noncomputable instance : DecidableRel rmseLe :=
  fun a b => Real.decidableLE a.rmse b.rmse

instance : IsTotal Stat rmseLe := ⟨fun a b => le_total a.rmse b.rmse⟩

instance : IsTrans Stat rmseLe := ⟨fun _ _ _ h1 h2 => le_trans h1 h2⟩

/-- Model of `sorted(submission_stats, key=lambda x: x["rmse"])` (line 219): Python's
`sorted` is the stable ascending sort by the key, realised here by the stable
`insertionSort`. -/
noncomputable def rankedOf (stats : List Stat) : List Stat :=
  List.insertionSort rmseLe stats

/-- One output row: `enumerate(ranked, start=1)` pairs a 0-based index with a
stat; rank is the 1-based position. -/
noncomputable def mkRankRow (p : Nat × Stat) : RankRow :=
  ⟨p.1 + 1, p.2.submission_id, p.2.participant_id, p.2.submission_num,
    p.2.rmse, p.2.file, p.2.participant_path⟩

/-- The ranking CSV body (src/export-all.py lines 244-253). -/
noncomputable def rankingOf (stats : List Stat) : List RankRow :=
  ((rankedOf stats).enum).map mkRankRow

/-- Observable outcome of one `evaluate_participants` call: the two lists it
builds and the ranking CSV body it writes (`none` = no file written). -/
structure EvalResult : Type where
  summary : List SummaryRow
  stats : List Stat
  ranking : Option (List RankRow)

/-- Function `evaluate_participants` (src/export-all.py lines 156-258): abort with no
output when discovery finds no participants (lines 157-160) or when no
submission scored (lines 215-217); otherwise sort, rank and write the
ranking. -/
noncomputable def evaluate_participants (solutions : List (String × List ℚ))
    (participants : List ParticipantDir) : EvalResult :=
  if participants.isEmpty then ⟨[], [], none⟩
  else
    let rows := (participants.map (evalParticipant solutions)).flatten
    let summary := rows.map Prod.fst
    let stats := rows.map Prod.snd
    if stats.isEmpty then ⟨summary, stats, none⟩
    else ⟨summary, stats, some (rankingOf stats)⟩

/-! ### Lemmas about the scorer -/

/-- Lemma: `zipWith` only consumes the common initial segment of its two arguments. -/
theorem zipWith_take_min (f : ℚ → ℚ → ℚ) :
    ∀ a b : List ℚ, List.zipWith f a b =
      List.zipWith f (a.take (min a.length b.length)) (b.take (min a.length b.length))
  | [], _ => by simp
  | _ :: _, [] => by simp
  | x :: a, y :: b => by
    simp only [List.length_cons, List.zipWith_cons_cons]
    have hmin : min (a.length + 1) (b.length + 1) = min a.length b.length + 1 := by omega
    rw [hmin, List.take_succ_cons, List.take_succ_cons, List.zipWith_cons_cons]
    exact congrArg _ (zipWith_take_min f a b)

theorem sqDiffs_take_min (a b : List ℚ) :
    sqDiffs a b = sqDiffs (a.take (min a.length b.length)) (b.take (min a.length b.length)) :=
  zipWith_take_min _ a b

theorem sqDiffs_comm : ∀ a b : List ℚ, sqDiffs a b = sqDiffs b a
  | [], l => by cases l <;> rfl
  | _ :: _, [] => rfl
  | x :: a, y :: b => by
    simp only [sqDiffs, List.zipWith_cons_cons]
    refine congrArg₂ _ (by ring) (sqDiffs_comm a b)

theorem compute_mse_some (a b : List ℚ) (ha : a ≠ []) (hb : b ≠ []) :
    compute_mse (some a) (some b) =
      some (np_mean (sqDiffs (a.take (min a.length b.length))
        (b.take (min a.length b.length)))) := by
  have ha' : a.length ≠ 0 := fun h => ha (List.length_eq_zero.mp h)
  have hb' : b.length ≠ 0 := fun h => hb (List.length_eq_zero.mp h)
  simp only [compute_mse]
  rw [if_neg (by omega)]
  by_cases hlen : a.length = b.length
  · rw [if_neg (by omega), ← sqDiffs_take_min]
  · rw [if_pos (by omega)]

theorem compute_mse_truncate (a b : List ℚ) (ha : a ≠ []) (hb : b ≠ []) :
    compute_mse (some a) (some b) =
      compute_mse (some (a.take (min a.length b.length)))
        (some (b.take (min a.length b.length))) := by
  have ha' : a.length ≠ 0 := fun h => ha (List.length_eq_zero.mp h)
  have hb' : b.length ≠ 0 := fun h => hb (List.length_eq_zero.mp h)
  have hka : (a.take (min a.length b.length)).length = min a.length b.length := by
    rw [List.length_take]; omega
  have hkb : (b.take (min a.length b.length)).length = min a.length b.length := by
    rw [List.length_take]; omega
  have hka' : a.take (min a.length b.length) ≠ [] := by
    intro h
    have := congrArg List.length h
    rw [hka] at this
    simp only [List.length_nil] at this
    omega
  have hkb' : b.take (min a.length b.length) ≠ [] := by
    intro h
    have := congrArg List.length h
    rw [hkb] at this
    simp only [List.length_nil] at this
    omega
  rw [compute_mse_some a b ha hb, compute_mse_some _ _ hka' hkb',
    hka, hkb, min_self, List.take_take, List.take_take, min_self]

/-! ### Claim theorems: scorer -/

/-- C1: for non-empty sequences `a` and `b`, the scorer truncates both to
`k = min (len a) (len b)` and returns `sqrt (mean ((aᵢ - bᵢ)²))` over the
truncated aligned sequences; in particular `score a b = score a[:k] b[:k]`. -/
theorem rmse_truncates_to_min_length (a b : List ℚ) (ha : a ≠ []) (hb : b ≠ []) :
    compute_rmse (some a) (some b) =
      some (Real.sqrt ((np_mean (sqDiffs (a.take (min a.length b.length))
        (b.take (min a.length b.length))) : ℚ) : ℝ)) ∧
    compute_rmse (some a) (some b) =
      compute_rmse (some (a.take (min a.length b.length)))
        (some (b.take (min a.length b.length))) := by
  constructor
  · rw [compute_rmse, compute_mse_some a b ha hb, Option.map_some']
  · rw [compute_rmse, compute_rmse, compute_mse_truncate a b ha hb]

/-- Witness for C1 at `a = [1, 2, 4]`, `b = [1, 2]` (so `k = 2`). -/
theorem rmse_truncates_to_min_length_witness :
    compute_rmse (some [(1 : ℚ), 2, 4]) (some [(1 : ℚ), 2]) =
      some (Real.sqrt ((np_mean (sqDiffs ([(1 : ℚ), 2, 4].take
          (min ([(1 : ℚ), 2, 4].length) ([(1 : ℚ), 2].length)))
        ([(1 : ℚ), 2].take (min ([(1 : ℚ), 2, 4].length) ([(1 : ℚ), 2].length)))) : ℚ) : ℝ)) ∧
    compute_rmse (some [(1 : ℚ), 2, 4]) (some [(1 : ℚ), 2]) =
      compute_rmse (some ([(1 : ℚ), 2, 4].take
          (min ([(1 : ℚ), 2, 4].length) ([(1 : ℚ), 2].length))))
        (some ([(1 : ℚ), 2].take (min ([(1 : ℚ), 2, 4].length) ([(1 : ℚ), 2].length)))) :=
  rmse_truncates_to_min_length [(1 : ℚ), 2, 4] [(1 : ℚ), 2] (by decide) (by decide)

/-- C9: scoring is symmetric, `score a b = score b a`, for all inputs
including `None` and the empty/unequal-length cases. -/
theorem rmse_symmetric (oa ob : Option (List ℚ)) :
    compute_rmse oa ob = compute_rmse ob oa := by
  rw [compute_rmse, compute_rmse]
  suffices h : compute_mse oa ob = compute_mse ob oa by rw [h]
  match oa, ob with
  | none, none => rfl
  | none, some b => rfl
  | some a, none => rfl
  | some a, some b =>
    simp only [compute_mse]
    by_cases ha : a.length = 0
    · simp [ha]
    · by_cases hb : b.length = 0
      · simp [hb]
      · simp only [ha, hb, or_false, false_or, if_false]
        by_cases hlen : a.length = b.length
        · simp only [hlen, ne_eq, not_true_eq_false, if_false]
          rw [sqDiffs_comm]
        · have hlen' : ¬ b.length = a.length := fun h => hlen h.symm
          simp only [ne_eq, hlen, hlen', not_false_eq_true, if_true]
          rw [sqDiffs_comm, min_comm]

/-- C8: the scorer returns `None` exactly when an input is absent or empty;
on any other input it returns a value, and that value is non-negative. -/
theorem rmse_none_iff_and_nonneg (oa ob : Option (List ℚ)) :
    (compute_rmse oa ob = none ↔
      oa = none ∨ ob = none ∨ oa = some [] ∨ ob = some []) ∧
    (∀ a b : List ℚ, oa = some a → ob = some b → a ≠ [] → b ≠ [] →
      ∃ r : ℝ, compute_rmse oa ob = some r ∧ 0 ≤ r) := by
  constructor
  · rw [compute_rmse, Option.map_eq_none']
    match oa, ob with
    | none, _ => simp [compute_mse]
    | some a, none => simp [compute_mse]
    | some a, some b =>
      simp only [compute_mse, Option.some.injEq, reduceCtorEq, false_or]
      constructor
      · intro h
        by_cases hc : a.length = 0 ∨ b.length = 0
        · rcases hc with hc | hc
          · exact Or.inl (List.length_eq_zero.mp hc)
          · exact Or.inr (List.length_eq_zero.mp hc)
        · rw [if_neg hc] at h
          split_ifs at h
      · intro h
        have hc : a.length = 0 ∨ b.length = 0 := by
          rcases h with h | h
          · exact Or.inl (by simp [h])
          · exact Or.inr (by simp [h])
        rw [if_pos hc]
  · intro a b ha hb hane hbne
    subst ha; subst hb
    refine ⟨Real.sqrt ((np_mean (sqDiffs (a.take (min a.length b.length))
      (b.take (min a.length b.length))) : ℚ) : ℝ), ?_, Real.sqrt_nonneg _⟩
    rw [compute_rmse, compute_mse_some a b hane hbne, Option.map_some']

/-- Witness for C8: the `None` characterisation at `([0], [1,1])` and the
non-negative value at the same pair. -/
theorem rmse_none_iff_and_nonneg_witness :
    (compute_rmse (some [(0 : ℚ)]) (some [(1 : ℚ), 1]) = none ↔
      (some [(0 : ℚ)] : Option (List ℚ)) = none ∨
      (some [(1 : ℚ), 1] : Option (List ℚ)) = none ∨
      some [(0 : ℚ)] = some [] ∨ some [(1 : ℚ), 1] = some []) ∧
    ∃ r : ℝ, compute_rmse (some [(0 : ℚ)]) (some [(1 : ℚ), 1]) = some r ∧ 0 ≤ r :=
  ⟨(rmse_none_iff_and_nonneg (some [(0 : ℚ)]) (some [(1 : ℚ), 1])).1,
   (rmse_none_iff_and_nonneg (some [(0 : ℚ)]) (some [(1 : ℚ), 1])).2
     [(0 : ℚ)] [(1 : ℚ), 1] rfl rfl (by decide) (by decide)⟩

/-! ### Claim theorems: loader -/

/-- C4: for every file, the loader returns either the value the body produced
or the explicit unreadable signal `none`; every exception escaping the parse
chain is caught (mapped to `none`), and `none` happens exactly when all four
parse strategies raised. -/
theorem loader_never_raises (f : FileParse) :
    ((∃ v, load_body f = Except.ok v ∧ load_numeric_file f = some v) ∨
     (∃ e, load_body f = Except.error e ∧ load_numeric_file f = none)) ∧
    (load_numeric_file f = none ↔
      f.s1 = Except.error () ∧ f.s2 = Except.error () ∧
      f.s3 = Except.error () ∧ f.s4 = Except.error ()) := by
  obtain ⟨s1, s2, s3, s4⟩ := f
  constructor
  · rcases s1 with e1 | a1
    · rcases s2 with e2 | a2
      · rcases s3 with e3 | a3
        · rcases s4 with e4 | a4
          · exact Or.inr ⟨(), rfl, rfl⟩
          · exact Or.inl ⟨postprocess a4, rfl, rfl⟩
        · exact Or.inl ⟨postprocess a3, rfl, rfl⟩
      · exact Or.inl ⟨postprocess a2, rfl, rfl⟩
    · exact Or.inl ⟨postprocess a1, rfl, rfl⟩
  · rcases s1 with e1 | a1 <;> rcases s2 with e2 | a2 <;>
      rcases s3 with e3 | a3 <;> rcases s4 with e4 | a4 <;>
      simp [load_numeric_file, load_body, parseAttempts, Except.map]

/-- C7: after the first successful parse strategy, a two-dimensional array
with at least two columns is reduced to its column 1, a two-dimensional array
with exactly one column is flattened, and a one-dimensional array passes
through unchanged. -/
theorem loader_postprocess_shape (f : FileParse) (arr : NDArray)
    (h : parseAttempts f = Except.ok arr) :
    (∀ rows n, arr = NDArray.two rows n → 2 ≤ n →
      load_numeric_file f = some (rows.map (fun r => r.getD 1 0))) ∧
    (∀ rows, arr = NDArray.two rows 1 → load_numeric_file f = some rows.flatten) ∧
    (∀ v, arr = NDArray.one v → load_numeric_file f = some v) := by
  have hload : load_numeric_file f = some (postprocess arr) := by
    rw [load_numeric_file, load_body, h, Except.map]
  refine ⟨?_, ?_, ?_⟩
  · intro rows n harr hn
    rw [hload, harr, postprocess, if_pos hn]
  · intro rows harr
    rw [hload, harr, postprocess, if_neg (by omega)]
  · intro v harr
    rw [hload, harr, postprocess]

/-- Witness for C7: the three shapes at concrete parse outcomes (a 2-column
array, a 1-column array, a 1-d array), each arriving through a different
successful strategy. -/
theorem loader_postprocess_shape_witness :
    load_numeric_file ⟨Except.ok (NDArray.two [[(1 : ℚ), 2], [3, 4]] 2),
        Except.error (), Except.error (), Except.error ()⟩ =
      some ([[(1 : ℚ), 2], [3, 4]].map (fun r => r.getD 1 0)) ∧
    load_numeric_file ⟨Except.error (), Except.ok (NDArray.two [[(5 : ℚ)], [6]] 1),
        Except.error (), Except.error ()⟩ = some ([[(5 : ℚ)], [6]].flatten) ∧
    load_numeric_file ⟨Except.error (), Except.error (), Except.error (),
        Except.ok (NDArray.one [(7 : ℚ), 8])⟩ = some [(7 : ℚ), 8] :=
  ⟨(loader_postprocess_shape
      ⟨Except.ok (NDArray.two [[(1 : ℚ), 2], [3, 4]] 2), Except.error (),
        Except.error (), Except.error ()⟩
      (NDArray.two [[(1 : ℚ), 2], [3, 4]] 2) rfl).1 [[(1 : ℚ), 2], [3, 4]] 2 rfl (by omega),
   (loader_postprocess_shape
      ⟨Except.error (), Except.ok (NDArray.two [[(5 : ℚ)], [6]] 1),
        Except.error (), Except.error ()⟩
      (NDArray.two [[(5 : ℚ)], [6]] 1) rfl).2.1 [[(5 : ℚ)], [6]] rfl,
   (loader_postprocess_shape
      ⟨Except.error (), Except.error (), Except.error (),
        Except.ok (NDArray.one [(7 : ℚ), 8])⟩
      (NDArray.one [(7 : ℚ), 8]) rfl).2.2 [(7 : ℚ), 8] rfl⟩


theorem stripCI_some : ∀ (pat s r : List Char), stripCI pat s = some r →
    ∃ pre, s = pre ++ r ∧ ciMatches pat pre
  | [], s, r, h => by
    refine ⟨[], ?_, rfl⟩
    simpa [stripCI] using h
  | _ :: _, [], r, h => by simp [stripCI] at h
  | p :: ps, c :: cs, r, h => by
    simp only [stripCI] at h
    split_ifs at h with hc
    obtain ⟨pre, hpre, hci⟩ := stripCI_some ps cs r h
    refine ⟨c :: pre, by simp [hpre], ?_⟩
    simp only [ciMatches, List.map_cons] at hci ⊢
    exact List.cons_eq_cons.mpr ⟨hc, hci⟩

theorem stripCI_of_ci : ∀ (pat pre r : List Char), ciMatches pat pre →
    stripCI pat (pre ++ r) = some r
  | [], pre, r, h => by
    have hpre : pre = [] := by
      have h' : pre.map lowerCode = [] := h
      exact List.map_eq_nil_iff.mp h'
    simp [hpre, stripCI]
  | p :: ps, [], r, h => by simp [ciMatches] at h
  | p :: ps, c :: cs, r, h => by
    simp only [ciMatches, List.map_cons, List.cons_eq_cons] at h
    simp only [List.cons_append, stripCI, if_pos h.1]
    exact stripCI_of_ci ps cs r h.2

theorem takeWhile_digits_append (d rest : List Char) (hd : ∀ c ∈ d, c.isDigit)
    (hrest : ∀ c, rest.head? = some c → c.isDigit = false) :
    (d ++ rest).takeWhile Char.isDigit = d ∧
    (d ++ rest).dropWhile Char.isDigit = rest := by
  induction d with
  | nil =>
    simp only [List.nil_append]
    cases rest with
    | nil => simp
    | cons c cs =>
      have hc := hrest c rfl
      simp [List.takeWhile_cons, List.dropWhile_cons, hc]
  | cons a d ih =>
    have ha : a.isDigit := hd a (List.mem_cons_self a d)
    have ih' := ih (fun c hc => hd c (List.mem_cons_of_mem a hc))
    simp [List.takeWhile_cons, List.dropWhile_cons, ha, ih'.1, ih'.2]

theorem isDigit_iff_toNat (c : Char) : c.isDigit = true ↔ 48 ≤ c.toNat ∧ c.toNat ≤ 57 := by
  simp only [Char.isDigit, Bool.and_eq_true, decide_eq_true_eq, Char.le_def,
    UInt32.le_def]
  constructor
  · intro ⟨h1, h2⟩
    exact ⟨h1, h2⟩
  · intro ⟨h1, h2⟩
    exact ⟨h1, h2⟩

theorem not_digit_of_lowerCode_dot (c : Char) (h : lowerCode c = 46) :
    c.isDigit = false := by
  rw [lowerCode] at h
  cases hdig : c.isDigit
  · rfl
  · have hn := (isDigit_iff_toNat c).mp hdig
    split_ifs at h with hc <;> omega

theorem ciMatches_csv_head (ext : List Char) (h : ciMatches ".csv".toList ext) :
    ∃ e1 rest, ext = e1 :: rest ∧ lowerCode e1 = 46 := by
  have hcsv : ".csv".toList = ['.', 'c', 's', 'v'] := rfl
  rw [ciMatches, hcsv] at h
  cases ext with
  | nil => simp at h
  | cons e1 rest =>
    simp only [List.map_cons, List.cons_eq_cons] at h
    exact ⟨e1, rest, rfl, by rw [h.1]; decide⟩

theorem parse_isSome_iff_anchored (fname : String) :
    (parse_submission_filename fname).isSome ↔ anchoredPattern fname := by
  constructor
  · intro h
    unfold parse_submission_filename at h
    split at h
    · simp at h
    · rename_i r1 hs1
      split at h
      · rename_i r3 hd
        split_ifs at h with hguard
        · simp at h
        · split at h
          · simp at h
          · rename_i rest hs2
            push_neg at hguard
            obtain ⟨pre, hpre, hcipre⟩ := stripCI_some _ _ _ hs1
            obtain ⟨ext, hext, hciext⟩ := stripCI_some _ _ _ hs2
            refine ⟨pre, r1.takeWhile Char.isDigit, r3.takeWhile Char.isDigit,
              ext, rest, ?_, hcipre, ⟨hguard.1, fun c hc => List.mem_takeWhile_imp hc⟩,
              ⟨hguard.2, fun c hc => List.mem_takeWhile_imp hc⟩, hciext⟩
            have hr1 : r1 = r1.takeWhile Char.isDigit ++ ('_' :: r3) := by
              rw [← hd, List.takeWhile_append_dropWhile]
            have hr3 : r3 = r3.takeWhile Char.isDigit ++ (ext ++ rest) := by
              rw [← hext, List.takeWhile_append_dropWhile]
            conv_lhs => rw [hpre, hr1]
            conv_lhs => rw [hr3]
            simp [List.append_assoc]
      · simp at h
  · rintro ⟨pre, d1, d2, ext, rest, hdec, hpre, hd1, hd2, hext⟩
    obtain ⟨e1, ext', hext', he1⟩ := ciMatches_csv_head ext hext
    have hstrip1 : stripCI "results_".toList fname.toList =
        some (d1 ++ ('_' :: (d2 ++ (ext ++ rest)))) := by
      have hdec' : fname.toList = pre ++ (d1 ++ ('_' :: (d2 ++ (ext ++ rest)))) := by
        rw [hdec]
        simp [List.append_assoc]
      rw [hdec']
      exact stripCI_of_ci _ _ _ hpre
    have h3 := takeWhile_digits_append d1 ('_' :: (d2 ++ (ext ++ rest))) hd1.2
      (by intro c hc; rw [List.head?_cons, Option.some_inj] at hc; rw [← hc]; decide)
    have h4 := takeWhile_digits_append d2 (ext ++ rest) hd2.2
      (by
        intro c hc
        rw [hext', List.cons_append, List.head?_cons, Option.some_inj] at hc
        rw [← hc]
        exact not_digit_of_lowerCode_dot e1 he1)
    have hstrip2 : stripCI ".csv".toList (ext ++ rest) = some rest :=
      stripCI_of_ci _ _ _ hext
    simp only [parse_submission_filename, hstrip1, h3.1, h3.2, h4.1, h4.2, hstrip2]
    rw [if_neg (by simp [hd1.1, hd2.1])]
    rfl

/-! ### Claim theorems: filename pattern (C3, corrected) -/

theorem strictPattern_last (fname : String) (h : strictPattern fname) :
    ∃ c, fname.toList.getLast? = some c ∧ lowerCode c = 118 := by
  obtain ⟨pre, d1, d2, ext, hdec, hpre, hd1, hd2, hext⟩ := h
  have hcsv : ".csv".toList = ['.', 'c', 's', 'v'] := rfl
  rw [ciMatches, hcsv] at hext
  have hne : ext ≠ [] := by
    intro he
    rw [he] at hext
    simp at hext
  have hlast : (ext.map lowerCode).getLast? = some 118 := by
    rw [hext]
    rfl
  rw [List.getLast?_map] at hlast
  obtain ⟨c, hc, hlc⟩ := Option.map_eq_some'.mp hlast
  refine ⟨c, ?_, hlc⟩
  rw [hdec]
  have hne2 : d2 ++ ext ≠ [] := fun hh => hne (List.append_eq_nil.mp hh).2
  have hne3 : ('_' :: (d2 ++ ext) : List Char) ≠ [] := by simp
  have hne4 : d1 ++ ('_' :: (d2 ++ ext)) ≠ [] := by simp
  rw [List.append_assoc, List.getLast?_append_of_ne_nil _ hne4,
    List.getLast?_append_of_ne_nil _ hne3,
    show ('_' :: (d2 ++ ext) : List Char) = ['_'] ++ (d2 ++ ext) from rfl,
    List.getLast?_append_of_ne_nil _ hne2, List.getLast?_append_of_ne_nil _ hne, hc]

/-- Counterexample to C3 as stated: a filename with trailing characters after
`.csv` does not match the strict (whole-name) pattern, yet the parser accepts
it, because `re.match` only anchors at the start. -/
theorem parse_accepts_trailing_characters :
    parse_submission_filename "Results_12_3.csvOLD" = some ("12", 3) ∧
    ¬ strictPattern "Results_12_3.csvOLD" := by
  refine ⟨by decide, fun h => ?_⟩
  obtain ⟨c, hc, hl⟩ := strictPattern_last _ h
  have hD : ("Results_12_3.csvOLD".toList).getLast? = some 'D' := by decide
  rw [hD, Option.some_inj] at hc
  rw [← hc] at hl
  exact absurd hl (by decide)

/-- C3 (amended): a file is accepted (id and submission number extracted)
exactly when the pattern `Results_<digits>_<digits>.csv` matches
case-insensitively at the START of the filename — trailing characters after
`.csv` are permitted; every filename not matching in that anchored sense is
silently skipped and leaves the count of accepted filenames unchanged. -/
theorem parse_accepts_iff_anchored (fname : String) (names : List String) :
    ((parse_submission_filename fname).isSome ↔ anchoredPattern fname) ∧
    ((parse_submission_filename fname).isSome = false →
      (names ++ [fname]).filter (fun n => (parse_submission_filename n).isSome) =
        names.filter (fun n => (parse_submission_filename n).isSome)) := by
  refine ⟨parse_isSome_iff_anchored fname, fun h => ?_⟩
  rw [List.filter_append]
  simp [h]

/-- Witness for C3 (amended): `notes.txt` is rejected and leaves the accepted
count over `[Results_1_1.csv]` unchanged. -/
theorem parse_accepts_iff_anchored_witness :
    ((parse_submission_filename "notes.txt").isSome ↔ anchoredPattern "notes.txt") ∧
    (["Results_1_1.csv", "notes.txt"].filter
        (fun n => (parse_submission_filename n).isSome) =
      ["Results_1_1.csv"].filter (fun n => (parse_submission_filename n).isSome)) :=
  ⟨(parse_accepts_iff_anchored "notes.txt" ["Results_1_1.csv"]).1,
   (parse_accepts_iff_anchored "notes.txt" ["Results_1_1.csv"]).2 (by decide)⟩

/-! ### Lemmas and claim theorem for the ranking aggregator (C2) -/

theorem filter_rmse_orderedInsert (q : ℝ) (a : Stat) :
    ∀ l : List Stat,
      (List.orderedInsert rmseLe a l).filter (fun s => decide (s.rmse = q)) =
        if a.rmse = q then a :: l.filter (fun s => decide (s.rmse = q))
        else l.filter (fun s => decide (s.rmse = q))
  | [] => by
    simp only [List.orderedInsert_nil, List.filter_nil]
    by_cases hq : a.rmse = q <;> simp [hq]
  | b :: l => by
    simp only [List.orderedInsert]
    by_cases hab : rmseLe a b
    · rw [if_pos hab]
      by_cases hq : a.rmse = q <;> simp [hq, List.filter_cons]
    · rw [if_neg hab]
      have hba : b.rmse < a.rmse := lt_of_not_le hab
      by_cases hbq : b.rmse = q
      · have haq : ¬ a.rmse = q := fun haq => (ne_of_lt hba) (hbq.trans haq.symm)
        simp [List.filter_cons, hbq, haq, filter_rmse_orderedInsert q a l]
      · by_cases haq : a.rmse = q <;>
          simp [List.filter_cons, hbq, haq, filter_rmse_orderedInsert q a l]

theorem filter_rmse_insertionSort (q : ℝ) :
    ∀ l : List Stat,
      (List.insertionSort rmseLe l).filter (fun s => decide (s.rmse = q)) =
        l.filter (fun s => decide (s.rmse = q))
  | [] => rfl
  | a :: l => by
    simp only [List.insertionSort]
    rw [filter_rmse_orderedInsert q a (List.insertionSort rmseLe l),
      filter_rmse_insertionSort q l, List.filter_cons]
    by_cases hq : a.rmse = q <;> simp [hq]

/-- C2: the Ranking Aggregator sorts ascending by RMSE with a stable sort —
the output is sorted, is a permutation of the input, and entries of any given
RMSE value appear in their original (discovery) order — and assigns
1-based dense ranks `1, 2, …, n` with `n` the number of scored submissions. -/
theorem ranking_sorted_stable_dense (stats : List Stat) :
    (rankingOf stats).map RankRow.rank = List.range' 1 stats.length ∧
    (rankedOf stats).Sorted rmseLe ∧
    (rankedOf stats).Perm stats ∧
    (∀ q : ℝ, (rankedOf stats).filter (fun s => decide (s.rmse = q)) =
      stats.filter (fun s => decide (s.rmse = q))) ∧
    (rankingOf stats).length = stats.length := by
  have hlen : (rankedOf stats).length = stats.length :=
    List.length_insertionSort rmseLe stats
  refine ⟨?_, List.sorted_insertionSort rmseLe stats,
    List.perm_insertionSort rmseLe stats,
    fun q => filter_rmse_insertionSort q stats, ?_⟩
  · rw [rankingOf, List.map_map]
    have h1 : (RankRow.rank ∘ mkRankRow) = (fun n => n + 1) ∘ Prod.fst := rfl
    rw [h1, ← List.map_map, List.enum_map_fst, List.range'_eq_map_range]
    rw [hlen]
    exact (List.map_congr_left (fun i _ => Nat.add_comm 1 i)).symm
  · rw [rankingOf, List.length_map, List.enum_length, hlen]

/-! ### Lemmas about the evaluation pipeline (C5, C6, C10) -/

theorem evalFile_first (n0 : String) (v0 : List ℚ) (rest : List (String × List ℚ))
    (p : ParticipantDir) (f : SubFile) :
    evalFile ((n0, v0) :: rest) p f = evalFile [(n0, v0)] p f := by
  unfold evalFile
  cases hp : parse_submission_filename f.name with
  | none => rfl
  | some pr =>
    obtain ⟨pid, num⟩ := pr
    simp [match_solution_file, List.lookup]

theorem evalParticipant_first (n0 : String) (v0 : List ℚ)
    (rest : List (String × List ℚ)) (p : ParticipantDir) :
    evalParticipant ((n0, v0) :: rest) p = evalParticipant [(n0, v0)] p := by
  unfold evalParticipant
  rw [funext (evalFile_first n0 v0 rest p)]

theorem evaluate_first (n0 : String) (v0 : List ℚ)
    (rest : List (String × List ℚ)) (parts : List ParticipantDir) :
    evaluate_participants ((n0, v0) :: rest) parts =
      evaluate_participants [(n0, v0)] parts := by
  unfold evaluate_participants
  rw [funext (evalParticipant_first n0 v0 rest)]

theorem mem_rows_exists (solutions : List (String × List ℚ))
    (parts : List ParticipantDir) (pr : SummaryRow × Stat)
    (h : pr ∈ (parts.map (evalParticipant solutions)).flatten) :
    ∃ p ∈ parts, ∃ f ∈ p.files, evalFile solutions p f = some pr := by
  rw [List.mem_flatten] at h
  obtain ⟨l, hl, hpr⟩ := h
  rw [List.mem_map] at hl
  obtain ⟨p, hp, rfl⟩ := hl
  refine ⟨p, hp, ?_⟩
  rw [evalParticipant] at hpr
  split_ifs at hpr with hs
  · rw [List.mem_filterMap] at hpr
    obtain ⟨f, hf, hef⟩ := hpr
    exact ⟨f, hf, hef⟩
  · simp at hpr

theorem evaluate_summary_eq (solutions : List (String × List ℚ))
    (parts : List ParticipantDir) (hp : parts.isEmpty = false) :
    (evaluate_participants solutions parts).summary =
      ((parts.map (evalParticipant solutions)).flatten).map Prod.fst := by
  simp only [evaluate_participants, hp, Bool.false_eq_true, if_false]
  split <;> rfl

theorem evaluate_stats_eq (solutions : List (String × List ℚ))
    (parts : List ParticipantDir) (hp : parts.isEmpty = false) :
    (evaluate_participants solutions parts).stats =
      ((parts.map (evalParticipant solutions)).flatten).map Prod.snd := by
  simp only [evaluate_participants, hp, Bool.false_eq_true, if_false]
  split <;> rfl

theorem evalFile_solution_file (solutions : List (String × List ℚ))
    (p : ParticipantDir) (f : SubFile) (pr : SummaryRow × Stat)
    (h : evalFile solutions p f = some pr) :
    match_solution_file f.name solutions = some pr.1.solution_file := by
  unfold evalFile at h
  split at h
  · exact absurd h (by simp)
  · split at h
    · exact absurd h (by simp)
    · rename_i solName hsol
      split at h
      · exact absurd h (by simp)
      · split at h
        · exact absurd h (by simp)
        · split at h
          · exact absurd h (by simp)
          · rw [Option.some_inj] at h
            rw [hsol, ← h]

theorem evalFile_id_from_name (solutions : List (String × List ℚ))
    (p : ParticipantDir) (f : SubFile) (pr : SummaryRow × Stat)
    (h : evalFile solutions p f = some pr) :
    pr.2.file = f.name ∧
    parse_submission_filename f.name =
      some (pr.2.participant_id, pr.2.submission_num) ∧
    pr.2.participant = p.base := by
  unfold evalFile at h
  split at h
  · exact absurd h (by simp)
  · rename_i pid num hparse
    split at h
    · exact absurd h (by simp)
    · split at h
      · exact absurd h (by simp)
      · split at h
        · exact absurd h (by simp)
        · split at h
          · exact absurd h (by simp)
          · rw [Option.some_inj] at h
            refine ⟨by rw [← h], ?_, by rw [← h]⟩
            rw [← h]
            exact hparse

/-! ### Claim theorems: pipeline (C5, C6, C10) -/

/-- C5: with several loaded solutions, evaluation behaves exactly as if only
the first-encountered solution existed — the other solutions contribute to no
score — and every summary row records the first solution's name as the
scoring target. -/
theorem scored_against_first_solution_only (n0 : String) (v0 : List ℚ)
    (rest : List (String × List ℚ)) (parts : List ParticipantDir) :
    evaluate_participants ((n0, v0) :: rest) parts =
      evaluate_participants [(n0, v0)] parts ∧
    (∀ row ∈ (evaluate_participants ((n0, v0) :: rest) parts).summary,
      row.solution_file = n0) := by
  refine ⟨evaluate_first n0 v0 rest parts, fun row hrow => ?_⟩
  cases hp : parts.isEmpty with
  | true => simp [evaluate_participants, hp] at hrow
  | false =>
    rw [evaluate_summary_eq _ _ hp] at hrow
    rw [List.mem_map] at hrow
    obtain ⟨pr, hpr, rfl⟩ := hrow
    obtain ⟨p, _, f, _, hef⟩ := mem_rows_exists _ parts pr hpr
    have h2 := evalFile_solution_file _ p f pr hef
    simp only [match_solution_file, Option.some_inj] at h2
    exact h2.symm

/-- Witness for C5: two loaded solutions, one participant with one readable
submission; the run equals the single-solution run and the summary row names
the first solution. -/
theorem scored_against_first_solution_only_witness :
    evaluate_participants [("sol.csv", [(0 : ℚ)]), ("other.csv", [(5 : ℚ)])]
        [⟨"Exports/PARTICIPANT_5", "PARTICIPANT_5", true,
          [⟨"Results_5_1.csv", ⟨Except.ok (NDArray.one [(2 : ℚ)]), Except.error (),
            Except.error (), Except.error ()⟩⟩]⟩] =
      evaluate_participants [("sol.csv", [(0 : ℚ)])]
        [⟨"Exports/PARTICIPANT_5", "PARTICIPANT_5", true,
          [⟨"Results_5_1.csv", ⟨Except.ok (NDArray.one [(2 : ℚ)]), Except.error (),
            Except.error (), Except.error ()⟩⟩]⟩] ∧
    SummaryRow.solution_file
      ⟨"PARTICIPANT_5", "5", 1, "PARTICIPANT_5_Sub1", "Exports/PARTICIPANT_5",
        "Results_5_1.csv", "sol.csv",
        Real.sqrt ((np_mean (sqDiffs [(0 : ℚ)] [(2 : ℚ)]) : ℚ) : ℝ)⟩ = "sol.csv" :=
  ⟨(scored_against_first_solution_only "sol.csv" [(0 : ℚ)] [("other.csv", [(5 : ℚ)])]
      [⟨"Exports/PARTICIPANT_5", "PARTICIPANT_5", true,
        [⟨"Results_5_1.csv", ⟨Except.ok (NDArray.one [(2 : ℚ)]), Except.error (),
          Except.error (), Except.error ()⟩⟩]⟩]).1,
   (scored_against_first_solution_only "sol.csv" [(0 : ℚ)] [("other.csv", [(5 : ℚ)])]
      [⟨"Exports/PARTICIPANT_5", "PARTICIPANT_5", true,
        [⟨"Results_5_1.csv", ⟨Except.ok (NDArray.one [(2 : ℚ)]), Except.error (),
          Except.error (), Except.error ()⟩⟩]⟩]).2
     ⟨"PARTICIPANT_5", "5", 1, "PARTICIPANT_5_Sub1", "Exports/PARTICIPANT_5",
       "Results_5_1.csv", "sol.csv",
       Real.sqrt ((np_mean (sqDiffs [(0 : ℚ)] [(2 : ℚ)]) : ℚ) : ℝ)⟩
     (by
       have hs : (evaluate_participants
           [("sol.csv", [(0 : ℚ)]), ("other.csv", [(5 : ℚ)])]
           [⟨"Exports/PARTICIPANT_5", "PARTICIPANT_5", true,
             [⟨"Results_5_1.csv", ⟨Except.ok (NDArray.one [(2 : ℚ)]), Except.error (),
               Except.error (), Except.error ()⟩⟩]⟩]).summary =
           [⟨"PARTICIPANT_5", "5", 1, "PARTICIPANT_5_Sub1", "Exports/PARTICIPANT_5",
             "Results_5_1.csv", "sol.csv",
             Real.sqrt ((np_mean (sqDiffs [(0 : ℚ)] [(2 : ℚ)]) : ℚ) : ℝ)⟩] := rfl
       rw [hs]
       exact List.mem_singleton.mpr rfl)⟩

/-- C6: a cycle that discovers no participants, or whose scoring produces no
valid submission records, aborts before the output stage: no ranking output
is produced. -/
theorem no_ranking_without_data (solutions : List (String × List ℚ))
    (parts : List ParticipantDir)
    (h : parts = [] ∨ (evaluate_participants solutions parts).stats = []) :
    (evaluate_participants solutions parts).ranking = none := by
  rcases h with h | h
  · subst h
    rfl
  · cases hp : parts.isEmpty with
    | true => simp [evaluate_participants, hp]
    | false =>
      rw [evaluate_stats_eq solutions parts hp] at h
      simp only [evaluate_participants, hp, Bool.false_eq_true, if_false, h,
        List.isEmpty_nil, if_true]

/-- Witness for C6: an empty participant list yields no ranking output. -/
theorem no_ranking_without_data_witness :
    (evaluate_participants [("ref.csv", [(1 : ℚ)])] []).ranking = none :=
  no_ranking_without_data [("ref.csv", [(1 : ℚ)])] [] (Or.inl rfl)

/-- C10: the participant id recorded in a scored submission is the id parsed
out of the submission filename — nothing compares it to the enclosing
`PARTICIPANT_<id>` directory name — and a file whose embedded id differs from
its directory's id is still scored and ranked under the filename's id, as the
concrete `PARTICIPANT_7`-directory/`Results_9_1.csv`-file run shows. -/
theorem participant_id_from_filename :
    (∀ (solutions : List (String × List ℚ)) (parts : List ParticipantDir) (st : Stat),
      st ∈ (evaluate_participants solutions parts).stats →
      parse_submission_filename st.file = some (st.participant_id, st.submission_num)) ∧
    (∃ st : Stat,
      (evaluate_participants [("solution.csv", [(0 : ℚ)])]
          [⟨"Exports/PARTICIPANT_7", "PARTICIPANT_7", true,
            [⟨"Results_9_1.csv", ⟨Except.ok (NDArray.one [(2 : ℚ)]), Except.error (),
              Except.error (), Except.error ()⟩⟩]⟩]).stats = [st] ∧
      st.participant = "PARTICIPANT_7" ∧ st.participant_id = "9" ∧
      ∃ rows, (evaluate_participants [("solution.csv", [(0 : ℚ)])]
          [⟨"Exports/PARTICIPANT_7", "PARTICIPANT_7", true,
            [⟨"Results_9_1.csv", ⟨Except.ok (NDArray.one [(2 : ℚ)]), Except.error (),
              Except.error (), Except.error ()⟩⟩]⟩]).ranking = some rows ∧
        rows.map (fun r => (r.rank, r.participant_id)) = [(1, "9")]) := by
  constructor
  · intro solutions parts st hst
    cases hp : parts.isEmpty with
    | true => simp [evaluate_participants, hp] at hst
    | false =>
      rw [evaluate_stats_eq solutions parts hp] at hst
      rw [List.mem_map] at hst
      obtain ⟨pr, hpr, rfl⟩ := hst
      obtain ⟨p, _, f, _, hef⟩ := mem_rows_exists solutions parts pr hpr
      obtain ⟨hfile, hparse, _⟩ := evalFile_id_from_name solutions p f pr hef
      rw [hfile]
      exact hparse
  · refine ⟨⟨"PARTICIPANT_9_Sub1", "PARTICIPANT_7", "9", 1,
      Real.sqrt ((np_mean (sqDiffs [(0 : ℚ)] [(2 : ℚ)]) : ℚ) : ℝ),
      "Results_9_1.csv", "Exports/PARTICIPANT_7"⟩, rfl, rfl, rfl, ?_⟩
    exact ⟨_, rfl, rfl⟩

/-- Witness for C10: the scored record of the mismatched run carries the id
parsed from its filename. -/
theorem participant_id_from_filename_witness :
    parse_submission_filename
        (Stat.file ⟨"PARTICIPANT_9_Sub1", "PARTICIPANT_7", "9", 1,
          Real.sqrt ((np_mean (sqDiffs [(0 : ℚ)] [(2 : ℚ)]) : ℚ) : ℝ),
          "Results_9_1.csv", "Exports/PARTICIPANT_7"⟩) =
      some (Stat.participant_id ⟨"PARTICIPANT_9_Sub1", "PARTICIPANT_7", "9", 1,
          Real.sqrt ((np_mean (sqDiffs [(0 : ℚ)] [(2 : ℚ)]) : ℚ) : ℝ),
          "Results_9_1.csv", "Exports/PARTICIPANT_7"⟩,
        Stat.submission_num ⟨"PARTICIPANT_9_Sub1", "PARTICIPANT_7", "9", 1,
          Real.sqrt ((np_mean (sqDiffs [(0 : ℚ)] [(2 : ℚ)]) : ℚ) : ℝ),
          "Results_9_1.csv", "Exports/PARTICIPANT_7"⟩) :=
  participant_id_from_filename.1 [("solution.csv", [(0 : ℚ)])]
    [⟨"Exports/PARTICIPANT_7", "PARTICIPANT_7", true,
      [⟨"Results_9_1.csv", ⟨Except.ok (NDArray.one [(2 : ℚ)]), Except.error (),
        Except.error (), Except.error ()⟩⟩]⟩]
    ⟨"PARTICIPANT_9_Sub1", "PARTICIPANT_7", "9", 1,
      Real.sqrt ((np_mean (sqDiffs [(0 : ℚ)] [(2 : ℚ)]) : ℚ) : ℝ),
      "Results_9_1.csv", "Exports/PARTICIPANT_7"⟩
    (by
      have hs : (evaluate_participants [("solution.csv", [(0 : ℚ)])]
          [⟨"Exports/PARTICIPANT_7", "PARTICIPANT_7", true,
            [⟨"Results_9_1.csv", ⟨Except.ok (NDArray.one [(2 : ℚ)]), Except.error (),
              Except.error (), Except.error ()⟩⟩]⟩]).stats =
          [⟨"PARTICIPANT_9_Sub1", "PARTICIPANT_7", "9", 1,
            Real.sqrt ((np_mean (sqDiffs [(0 : ℚ)] [(2 : ℚ)]) : ℚ) : ℝ),
            "Results_9_1.csv", "Exports/PARTICIPANT_7"⟩] := rfl
      rw [hs]
      exact List.mem_singleton.mpr rfl)

end Leaderboard
